import Mathlib

/-!
# Verification of the Relay compiler orchestration core (`compiler.rs`)

Shallow embedding of `src/compiler/crates/relay-compiler/src/compiler.rs`.

The file models:
* the data types (`Config`, `ProjectConfig`, `CompilerState`, `ArtifactMap`,
  `BuildProjectError`, `Error`, `ValidationError`);
* the free function `build_projects` (lines 307-397): parse, work-set
  determination, analysis phase, commit phase, error aggregation;
* the methods `Compiler::build_projects` (250-276), `Compiler::compile`
  (42-55), `Compiler::check_projects` (182-248),
  `Compiler::watch` (129-180), `Compiler::watch_with_callback` (72-127),
  `Compiler::print_project_error` (278-304).

External collaborators (`build_project`, `commit_project`, `check_project`,
the watchman subscription and `merge_file_source_changes`, see spec §6)
are modelled as parameters gathered in an `Env` structure: the theorems
hold for every collaborator behaviour.  Rust panics (`panic!`/`unwrap`)
are modelled by the `PResult.panicked` constructor.  The concurrent
analysis (`par_iter`) and commit (`task::spawn` + `join_all`) phases are
modelled by their sequentialisation in registry order, which determines
the same success/error sets.  Calls to the collaborators are recorded in
an explicit event trace so that "X is invoked for project P" is a statement
about the model.
-/

/-- Interned project key (`ProjectName`), modelled as a string. -/
abbrev ProjectName := String

/-- A built schema (opaque external representation). -/
abbrev Schema := Nat

/-- Generated artifacts of one project (opaque external representation). -/
abbrev Artifacts := Nat

/-- One opaque change batch delivered by the file-source subscription. -/
abbrev FileSourceChanges := Nat

/-- A source location attached to a validation error (opaque token). -/
abbrev Location := String

/-- `graphql_ir::ValidationError`: a message plus source locations. -/
structure ValidationError where
  message : String
  locations : List Location
deriving DecidableEq, Repr

/-- `BuildProjectError`: the per-project structured failure.
`validationErrors` is the variant rendered by `print_project_error`;
all other pipeline-stage failures are collapsed into one opaque variant. -/
inductive BuildProjectError where
  | validationErrors (errors : List ValidationError)
  | buildFailure (description : String)
deriving DecidableEq, Repr

/-- `errors::Error`: the compiler-level error.  `buildProjectsErrors` is the
aggregate of per-project failures (`Error::BuildProjectsErrors`); all other
variants (watchman transport failure, sources parse failure, merge failure)
are collapsed into one opaque variant. -/
inductive Error where
  | buildProjectsErrors (errors : List BuildProjectError)
  | otherError (description : String)
deriving DecidableEq, Repr

/-- The artifact manifest: per-project generated-artifact identities.
`Default::default()` is the empty map `[]`. -/
abbrev ArtifactMap := List (ProjectName × Artifacts)

/-- A project configuration; only the `name` field is read by this file. -/
structure ProjectConfig where
  name : ProjectName
deriving DecidableEq, Repr

/-- `Config`: the ordered project registry (`config.projects`, an
insertion-ordered map modelled as an association list) and the optional
single-project restriction (`config.only_project`). -/
structure Config where
  projects : List (ProjectName × ProjectConfig)
  only_project : Option ProjectName
deriving DecidableEq, Repr

/-- `config.projects.get(&key)`. -/
def Config.getProject (config : Config) (key : ProjectName) : Option ProjectConfig :=
  (config.projects.find? (fun p => p.fst == key)).map (·.snd)

/-- `CompilerState`: per-project pending-changes tracking plus the artifact
manifest of the last successful build.  The `graphql_sources` snapshot is
opaque to this file (it is only fed to the external parser, modelled by
`Env.parse`), so it is not carried here. -/
structure CompilerState where
  dirty : List ProjectName
  artifacts : ArtifactMap
deriving DecidableEq, Repr

/-- `compiler_state.project_has_pending_changes(name)`. -/
def CompilerState.project_has_pending_changes
    (st : CompilerState) (name : ProjectName) : Bool :=
  st.dirty.contains name

/-- Modelled from the spec: `CompilerState::complete_compilation` lives in
`compiler_state.rs`, which is not among the provided sources.  Per spec
§4.3 / §3, completion clears the per-project dirty flags and installs the
new artifact manifest. -/
def CompilerState.complete_compilation
    (st : CompilerState) (next_artifacts : ArtifactMap) : CompilerState :=
  { st with dirty := [], artifacts := next_artifacts }

/-- Result of the analysis of one project
(`build_project`'s `Ok` payload `(ProjectName, Schema, Programs, Artifacts)`). -/
structure BuildOutput where
  project_name : ProjectName
  schema : Schema
  artifacts : Artifacts
deriving DecidableEq, Repr

/-- The external collaborators of the orchestration core (spec §6), plus the
outcome of the GraphQL source parse (`GraphQLAsts::from_graphql_sources*`,
external to this file).  `merge` is the contract of
`CompilerState::merge_file_source_changes` from spec §4.1: it returns the
updated state and whether any project became dirty, or an error. -/
structure Env where
  build_project : ProjectConfig → Except BuildProjectError BuildOutput
  commit_project : ProjectConfig → BuildOutput → Except BuildProjectError Unit
  check_project : ProjectConfig → Schema → Except BuildProjectError Unit
  merge : CompilerState → FileSourceChanges → Except Error (CompilerState × Bool)
  parse : Except Error Unit

/-- Outcome of running a piece of Rust code that may `panic!`. -/
inductive PResult (α : Type) where
  | panicked (msg : String)
  | returned (val : α)
deriving DecidableEq, Repr

/-- Trace of collaborator/callback invocations performed during a run.
`commitTaskPanicked` records a `panic!` raised *inside* a spawned commit
task (line 367): tokio contains such a panic at the `JoinHandle` boundary
and `join_all` (line 386) discards the `JoinError`, so it aborts only that
task, not the cycle. -/
inductive Event where
  | buildProjectCall (name : ProjectName)
  | commitProjectCall (name : ProjectName)
  | checkProjectCall (name : ProjectName)
  | callbackCall (result : Except Error Unit)
  | commitTaskPanicked (name : ProjectName)

/-- Projects for which `build_project` was invoked, in order. -/
def buildCalls (trace : List Event) : List ProjectName :=
  trace.filterMap fun e =>
    match e with
    | .buildProjectCall n => some n
    | _ => none

/-- Projects for which `commit_project` was invoked, in order. -/
def commitCalls (trace : List Event) : List ProjectName :=
  trace.filterMap fun e =>
    match e with
    | .commitProjectCall n => some n
    | _ => none

/-- Projects for which `check_project` was invoked, in order. -/
def checkCalls (trace : List Event) : List ProjectName :=
  trace.filterMap fun e =>
    match e with
    | .checkProjectCall n => some n
    | _ => none

/-- Arguments with which the watch-mode callback was invoked, in order. -/
def callbackCalls (trace : List Event) : List (Except Error Unit) :=
  trace.filterMap fun e =>
    match e with
    | .callbackCall r => some r
    | _ => none

/-- Projects whose spawned commit task panicked (panic contained by tokio),
in order. -/
def commitTaskPanics (trace : List Event) : List ProjectName :=
  trace.filterMap fun e =>
    match e with
    | .commitTaskPanicked n => some n
    | _ => none

/-- The error of an `Except`, if any. -/
def exceptError? {ε α : Type} : Except ε α → Option ε
  | .error e => some e
  | .ok _ => none

/-- The success value of an `Except`, if any. -/
def exceptOk? {ε α : Type} : Except ε α → Option α
  | .error _ => none
  | .ok v => some v

/-- The successes of the analysis phase (`build_results` partition, lines
346-353: `Ok` payloads in order). -/
def collectResults (build_results : List (Except BuildProjectError BuildOutput)) :
    List BuildOutput :=
  build_results.filterMap exceptOk?

/-- The failures of the analysis phase (`build_results` partition, lines
346-353: `Err` payloads in order). -/
def collectErrors (build_results : List (Except BuildProjectError BuildOutput)) :
    List BuildProjectError :=
  build_results.filterMap exceptError?

/-- Work-set determination, shared verbatim by `build_projects`
(lines 317-345) and `Compiler::check_projects` (lines 201-239): with a
single-project override, exactly the project it names (panicking when the
registry has no such project, dirty flags ignored); otherwise every
registry project whose pending-changes flag is set, in registry order. -/
def workSetResult (config : Config) (st : CompilerState) :
    PResult (List ProjectConfig) :=
  match config.only_project with
  | some only =>
    match config.getProject only with
    | none => .panicked ("Expected the project " ++ only ++ " to exist")
    | some project_config => .returned [project_config]
  | none =>
    .returned ((config.projects.filter
        (fun p => st.project_has_pending_changes p.snd.name)).map (·.snd))

/-- Commit phase (lines 355-390): one spawned task per analysis success,
each looking up its project configuration, invoking `commit_project`, and
pushing any failure into the mutex-guarded error vector.  A per-project
commit failure does not stop the other commits.  When the name is absent
from the registry the task's `panic!` (line 367) fires *inside*
`task::spawn`: tokio contains it, `join_all` (line 386) discards the
`JoinError`, the panic happens before the error mutex is locked (so the
mutex is not poisoned and `Arc::try_unwrap(..).unwrap().into_inner()
.unwrap()` at line 387 still succeeds), and neither a commit nor an error
is recorded for that project — the phase continues with the other tasks.
The contained panic is recorded in the trace as `commitTaskPanicked`.
The concurrent tasks are modelled sequentially in spawn order. -/
def commitPhase (env : Env) (config : Config) :
    List BuildOutput → List Event × PResult (List BuildProjectError)
  | [] => ([], .returned [])
  | out :: rest =>
    match config.getProject out.project_name with
    | none =>
      (Event.commitTaskPanicked out.project_name :: (commitPhase env config rest).1,
        (commitPhase env config rest).2)
    | some project_config =>
      match env.commit_project project_config out with
      | .ok _ =>
        (Event.commitProjectCall out.project_name :: (commitPhase env config rest).1,
          (commitPhase env config rest).2)
      | .error e =>
        match commitPhase env config rest with
        | (trace, .panicked msg) =>
          (Event.commitProjectCall out.project_name :: trace, .panicked msg)
        | (trace, .returned errs) =>
          (Event.commitProjectCall out.project_name :: trace, .returned (e :: errs))

/-- The free function `build_projects` (lines 307-397): parse all sources
once, determine the work set, run the analysis phase over it, and if it
produced no failure run the commit phase; return the aggregated failure if
any phase failed, else the new artifact manifest — which the code leaves at
`Default::default()` (line 393), i.e. the empty map. -/
def build_projects (env : Env) (config : Config) (st : CompilerState) :
    List Event × PResult (Except Error ArtifactMap) :=
  match env.parse with
  | .error e => ([], .returned (.error e))
  | .ok _ =>
    match workSetResult config st with
    | .panicked msg => ([], .panicked msg)
    | .returned work_set =>
      let build_results := work_set.map env.build_project
      let trace := work_set.map (fun pc => Event.buildProjectCall pc.name)
      let errors := collectErrors build_results
      if errors.isEmpty then
        match commitPhase env config (collectResults build_results) with
        | (trace2, .panicked msg) => (trace ++ trace2, .panicked msg)
        | (trace2, .returned commit_errors) =>
          (trace ++ trace2,
            .returned (if commit_errors.isEmpty then
                .ok ([] : ArtifactMap)
              else
                .error (.buildProjectsErrors commit_errors)))
      else
        (trace, .returned (.error (.buildProjectsErrors errors)))

/-- `schemas.get(&name)` on the map produced by `build_schemas`. -/
def lookupSchema (schemas : List (ProjectName × Schema)) (name : ProjectName) :
    Option Schema :=
  (schemas.find? (fun p => p.fst == name)).map (·.snd)

/-- Body of the per-project loop of `Compiler::check_projects` (lines
201-239) over a work set: look up the project's pre-built schema
(`.unwrap()`, panicking when absent), invoke `check_project`, push its
failure if any, and continue with the remaining projects. -/
def checkPhase (env : Env) (schemas : List (ProjectName × Schema)) :
    List ProjectConfig → List Event × PResult (List BuildProjectError)
  | [] => ([], .returned [])
  | project_config :: rest =>
    match lookupSchema schemas project_config.name with
    | none => ([], .panicked ("called Option::unwrap on a None value"))
    | some schema =>
      match env.check_project project_config schema with
      | .ok _ =>
        (Event.checkProjectCall project_config.name :: (checkPhase env schemas rest).1,
          (checkPhase env schemas rest).2)
      | .error e =>
        match checkPhase env schemas rest with
        | (trace, .panicked msg) =>
          (Event.checkProjectCall project_config.name :: trace, .panicked msg)
        | (trace, .returned errs) =>
          (Event.checkProjectCall project_config.name :: trace, .returned (e :: errs))

/-- `Compiler::check_projects` (lines 182-248): parse all sources, determine
the work set (same selection as `build_projects`: override if configured,
else the dirty projects), check each selected project collecting failures,
and return `Ok(())` exactly when no project failed, else the aggregate. -/
def check_projects (env : Env) (config : Config)
    (schemas : List (ProjectName × Schema)) (st : CompilerState) :
    List Event × PResult (Except Error Unit) :=
  match env.parse with
  | .error e => ([], .returned (.error e))
  | .ok _ =>
    match workSetResult config st with
    | .panicked msg => ([], .panicked msg)
    | .returned work_set =>
      match checkPhase env schemas work_set with
      | (trace, .panicked msg) => (trace, .panicked msg)
      | (trace, .returned build_project_errors) =>
        (trace,
          .returned (if build_project_errors.isEmpty then
              .ok ()
            else
              .error (.buildProjectsErrors build_project_errors)))

/-- Alias for the free function `build_projects`, so that the method
`Compiler.build_projects` below can refer to it (inside that definition the
short name `build_projects` would denote the method itself). -/
def schedulerBuildProjects : Env → Config → CompilerState →
    List Event × PResult (Except Error ArtifactMap) :=
  build_projects

/-- `Compiler::build_projects` (lines 250-276): run the scheduler; on
success record completion (`complete_compilation`) in the state and return
`Ok`, on failure leave the state untouched and return the error (after
printing it).  The Rust method mutates `&mut CompilerState`; the model
returns the resulting state alongside the `Result<()>`. -/
def Compiler.build_projects (env : Env) (config : Config) (st : CompilerState) :
    List Event × PResult (CompilerState × Except Error Unit) :=
  match schedulerBuildProjects env config st with
  | (trace, .panicked msg) => (trace, .panicked msg)
  | (trace, .returned (.ok next_artifacts)) =>
    (trace, .returned (st.complete_compilation next_artifacts, Except.ok ()))
  | (trace, .returned (.error e)) => (trace, .returned (st, Except.error e))

/-- `Compiler::compile` (lines 42-55): connect and query the file source
(modelled by the `initial` argument: the initial state or a connection
error), run `Compiler::build_projects` once, and return the final state on
success or the error. -/
def Compiler.compile (env : Env) (config : Config)
    (initial : Except Error CompilerState) :
    List Event × PResult (Except Error CompilerState) :=
  match initial with
  | .error e => ([], .returned (.error e))
  | .ok st =>
    match Compiler.build_projects env config st with
    | (trace, .panicked msg) => (trace, .panicked msg)
    | (trace, .returned (st2, Except.ok _)) => (trace, .returned (.ok st2))
    | (trace, .returned (_, Except.error e)) => (trace, .returned (.error e))

/-- One event of the change subscription, as observed by the watch loops:
`subscription.next_change()` yields a change batch (`Ok(Some(_))`), nothing
(`Ok(None)`), or a transport error (`Err(_)`). -/
inductive SubEvent where
  | change (batch : FileSourceChanges)
  | noChange
  | subError (e : Error)
deriving DecidableEq, Repr

/-- Whether a subscription event is a transport error. -/
def SubEvent.isSubError : SubEvent → Bool
  | .subError _ => true
  | _ => false

/-- The `loop` of `Compiler::watch` (lines 144-180), run over a finite
prefix of the subscription's event stream.  `returned (some e)` means the
loop exited with `Err(e)` (a `?` fired on `next_change` or on the merge);
`returned none` means the prefix was consumed with the loop still running
(the real loop is infinite).  A change batch is merged; if it produced new
pending changes a rebuild runs, whose failure is only logged (lines
163-169) — the loop continues either way with the state the rebuild
method left. -/
def watchLoop (env : Env) (config : Config) :
    CompilerState → List SubEvent → List Event × PResult (Option Error)
  | _, [] => ([], .returned none)
  | st, ev :: rest =>
    match ev with
    | .subError e => ([], .returned (some e))
    | .noChange => watchLoop env config st rest
    | .change batch =>
      match env.merge st batch with
      | .error e => ([], .returned (some e))
      | .ok (st2, had_new_changes) =>
        if had_new_changes then
          match Compiler.build_projects env config st2 with
          | (trace, .panicked msg) => (trace, .panicked msg)
          | (trace, .returned (st3, _)) =>
            (trace ++ (watchLoop env config st3 rest).1,
              (watchLoop env config st3 rest).2)
        else
          watchLoop env config st2 rest

/-- `Compiler::watch` (lines 129-180): subscribe (modelled by `initial`),
run one eager full build whose failure is only logged, then enter the watch
loop. -/
def watch (env : Env) (config : Config)
    (initial : Except Error (CompilerState × List SubEvent)) :
    List Event × PResult (Option Error) :=
  match initial with
  | .error e => ([], .returned (some e))
  | .ok (st0, events) =>
    match Compiler.build_projects env config st0 with
    | (trace, .panicked msg) => (trace, .panicked msg)
    | (trace, .returned (st1, _)) =>
      (trace ++ (watchLoop env config st1 events).1,
        (watchLoop env config st1 events).2)

/-- One iteration body of the `loop` of `Compiler::watch_with_callback`
(lines 90-126) for a received change batch: merge it (`?` propagates a
merge failure out of the loop); when the merge reports new pending changes,
invoke the callback with `Ok(())` to clear existing errors and then with
the result of re-checking all projects; otherwise only log. -/
def watchCallbackCycle (env : Env) (config : Config)
    (schemas : List (ProjectName × Schema)) (st : CompilerState)
    (batch : FileSourceChanges) :
    List Event × PResult (Except Error CompilerState) :=
  match env.merge st batch with
  | .error e => ([], .returned (.error e))
  | .ok (st2, had_new_changes) =>
    if had_new_changes then
      match check_projects env config schemas st2 with
      | (trace, .panicked msg) =>
        (Event.callbackCall (.ok ()) :: trace, .panicked msg)
      | (trace, .returned r) =>
        ((Event.callbackCall (.ok ()) :: trace) ++ [Event.callbackCall r],
          .returned (.ok st2))
    else
      ([], .returned (.ok st2))

/-- The `loop` of `Compiler::watch_with_callback` (lines 90-127) over a
finite prefix of the subscription's event stream, iterating
`watchCallbackCycle` on each received batch. -/
def watchWithCallbackLoop (env : Env) (config : Config)
    (schemas : List (ProjectName × Schema)) :
    CompilerState → List SubEvent → List Event × PResult (Option Error)
  | _, [] => ([], .returned none)
  | st, ev :: rest =>
    match ev with
    | .subError e => ([], .returned (some e))
    | .noChange => watchWithCallbackLoop env config schemas st rest
    | .change batch =>
      match watchCallbackCycle env config schemas st batch with
      | (trace, .panicked msg) => (trace, .panicked msg)
      | (trace, .returned (.error e)) => (trace, .returned (some e))
      | (trace, .returned (.ok st2)) =>
        (trace ++ (watchWithCallbackLoop env config schemas st2 rest).1,
          (watchWithCallbackLoop env config schemas st2 rest).2)

/-- Resolved original-source information for a location
(`watchman::source_for_location`'s payload: text plus position). -/
structure SourceInfo where
  text : String
  line_index : Nat
  column_index : Nat

/-- The external collaborators of `Compiler::print_project_error`:
`source_for_location` (resolve a location against the current source tree,
`None` when the file is no longer resolvable), `location.print` (render a
source excerpt) and the `Debug` rendering `format!("{:?}", location)`. -/
structure ReporterEnv where
  source_for_location : Location → Option SourceInfo
  locationPrint : Location → SourceInfo → String
  locationDebug : Location → String

/-- The fragment appended for one location (lines 289-300): a source
excerpt when the location resolves, else the raw `Debug` form, each on its
own line. -/
def locationFragment (renv : ReporterEnv) (location : Location) : String :=
  match renv.source_for_location location with
  | some source => "\n" ++ renv.locationPrint location source
  | none => "\n" ++ renv.locationDebug location

/-- Rendering of one `ValidationError` (lines 280-301): the message followed
by one fragment per attached location, in order. -/
def renderValidationError (renv : ReporterEnv) (ve : ValidationError) : String :=
  ve.locations.foldl
    (fun error_message location => error_message ++ locationFragment renv location)
    ve.message

/-- `Compiler::print_project_error` (lines 278-304): for a
`ValidationErrors` failure, log one rendered block per validation error, in
input order; other failure variants log nothing here. -/
def print_project_error (renv : ReporterEnv) (error : BuildProjectError) :
    List String :=
  match error with
  | .validationErrors errors => errors.map (renderValidationError renv)
  | _ => []

/-- The failures the commit phase collects when every committed output's
project name resolves in the registry: for each analysis success, in spawn
order, the error of its `commit_project` call, if any. -/
def commitErrorsOf (env : Env) (config : Config) (results : List BuildOutput) :
    List BuildProjectError :=
  results.filterMap fun out =>
    match config.getProject out.project_name with
    | some project_config => exceptError? (env.commit_project project_config out)
    | none => none

/-- The failures the check loop collects when every selected project's
schema is present: for each project of the work set, in order, the error of
its `check_project` call, if any. -/
def checkErrorsOf (env : Env) (schemas : List (ProjectName × Schema))
    (work_set : List ProjectConfig) : List BuildProjectError :=
  work_set.filterMap fun project_config =>
    match lookupSchema schemas project_config.name with
    | some schema => exceptError? (env.check_project project_config schema)
    | none => none

/-- Concatenation of a list of strings, used to state the shape of a
rendered diagnostic block. -/
def concatStrings : List String → String
  | [] => ""
  | s :: rest => s ++ concatStrings rest

/-- Fixture: project configuration named `A`. -/
def pcA : ProjectConfig := ⟨"A"⟩

/-- Fixture: project configuration named `B`. -/
def pcB : ProjectConfig := ⟨"B"⟩

/-- Fixture: a registry with projects `A` and `B` and no override. -/
def cfgAB : Config := ⟨[("A", pcA), ("B", pcB)], none⟩

/-- Fixture: the registry of `cfgAB` restricted to the override `A`. -/
def cfgOnlyA : Config := ⟨[("A", pcA), ("B", pcB)], some "A"⟩

/-- Fixture: the registry of `cfgAB` restricted to the missing override `C`. -/
def cfgOnlyC : Config := ⟨[("A", pcA), ("B", pcB)], some "C"⟩

/-- Fixture: state with both projects dirty and a prior manifest entry for
project `A`. -/
def stAB : CompilerState := ⟨["A", "B"], [("A", 7)]⟩

/-- Fixture: pre-built schemas for projects `A` and `B`. -/
def schemasAB : List (ProjectName × Schema) := [("A", 1), ("B", 2)]

/-- Fixture: collaborators for which every pipeline stage succeeds and every
merge reports new pending changes. -/
def envOK : Env where
  build_project := fun pc => .ok ⟨pc.name, 1, 2⟩
  commit_project := fun _ _ => .ok ()
  check_project := fun _ _ => .ok ()
  merge := fun st _ => .ok (st, true)
  parse := .ok ()

/-- Fixture: collaborators for which project `A`'s analysis fails and
everything else succeeds. -/
def envAfail : Env :=
  { envOK with
    build_project := fun pc =>
      if pc.name == "A" then .error (.buildFailure ("A analysis failed"))
      else .ok ⟨pc.name, 1, 2⟩ }

/-- Fixture: collaborators for which merging a change batch fails. -/
def envMergeFail : Env :=
  { envOK with merge := fun _ _ => .error (.otherError ("merge failed")) }

/-- Fixture: a reporter environment whose source resolver knows only the
location `loc0`; `loc1` is unresolvable (e.g. its file was deleted). -/
def renvW : ReporterEnv where
  source_for_location := fun loc =>
    if loc == "loc0" then some ⟨"query { f }", 1, 2⟩ else none
  locationPrint := fun loc source => loc ++ ": " ++ source.text
  locationDebug := fun loc => loc

/-- Fixture: two validation errors, the first with one resolvable and one
unresolvable location. -/
def vesW : List ValidationError :=
  [⟨"msg1", ["loc0", "loc1"]⟩, ⟨"msg2", []⟩]

/-- Fixture: collaborators whose analysis succeeds but labels every build
output with the project name `X`, which is absent from `cfgAB`'s registry. -/
def envBadName : Env :=
  { envOK with build_project := fun _ => .ok ⟨"X", 1, 2⟩ }

theorem buildCalls_append (a b : List Event) :
    buildCalls (a ++ b) = buildCalls a ++ buildCalls b := by
  simp [buildCalls, List.filterMap_append]

theorem commitCalls_append (a b : List Event) :
    commitCalls (a ++ b) = commitCalls a ++ commitCalls b := by
  simp [commitCalls, List.filterMap_append]

theorem buildCalls_buildTrace (ws : List ProjectConfig) :
    buildCalls (ws.map (fun pc => Event.buildProjectCall pc.name)) =
      ws.map (·.name) := by
  induction ws with
  | nil => rfl
  | cons pc rest ih => simp only [List.map_cons, buildCalls, List.filterMap_cons] at ih ⊢; simpa using ih

theorem commitCalls_buildTrace (ws : List ProjectConfig) :
    commitCalls (ws.map (fun pc => Event.buildProjectCall pc.name)) = [] := by
  induction ws with
  | nil => rfl
  | cons pc rest ih => simp only [List.map_cons, commitCalls, List.filterMap_cons] at ih ⊢; simp [ih]

theorem buildCalls_commitPhase (env : Env) (config : Config)
    (results : List BuildOutput) :
    buildCalls (commitPhase env config results).1 = [] := by
  induction results with
  | nil => rfl
  | cons out rest ih =>
    cases hlook : config.getProject out.project_name with
    | none =>
      simp only [commitPhase, hlook]
      simpa [buildCalls, List.filterMap_cons] using ih
    | some pc =>
      cases hc : env.commit_project pc out with
      | ok u =>
        simp only [commitPhase, hlook, hc]
        simpa [buildCalls, List.filterMap_cons] using ih
      | error e =>
        rcases h : commitPhase env config rest with ⟨tr, res⟩
        rw [h] at ih
        cases res with
        | panicked m =>
          simp only [commitPhase, hlook, hc, h]
          simpa [buildCalls, List.filterMap_cons] using ih
        | returned es =>
          simp only [commitPhase, hlook, hc, h]
          simpa [buildCalls, List.filterMap_cons] using ih

theorem callbackCalls_checkPhase (env : Env)
    (schemas : List (ProjectName × Schema)) (ws : List ProjectConfig) :
    callbackCalls (checkPhase env schemas ws).1 = [] := by
  induction ws with
  | nil => rfl
  | cons pc rest ih =>
    cases hlook : lookupSchema schemas pc.name with
    | none => simp [checkPhase, hlook, callbackCalls]
    | some schema =>
      cases hc : env.check_project pc schema with
      | ok u =>
        simp only [checkPhase, hlook, hc]
        simpa [callbackCalls, List.filterMap_cons] using ih
      | error e =>
        rcases h : checkPhase env schemas rest with ⟨tr, res⟩
        rw [h] at ih
        cases res with
        | panicked m =>
          simp only [checkPhase, hlook, hc, h]
          simpa [callbackCalls, List.filterMap_cons] using ih
        | returned es =>
          simp only [checkPhase, hlook, hc, h]
          simpa [callbackCalls, List.filterMap_cons] using ih

theorem commitPhase_char (env : Env) (config : Config)
    (results : List BuildOutput)
    (h : ∀ out ∈ results, (config.getProject out.project_name).isSome) :
    commitPhase env config results =
      (results.map (fun out => Event.commitProjectCall out.project_name),
        .returned (commitErrorsOf env config results)) := by
  induction results with
  | nil => rfl
  | cons out rest ih =>
    have hout := h out (List.mem_cons_self _ _)
    cases hlook : config.getProject out.project_name with
    | none => rw [hlook] at hout; simp at hout
    | some pc =>
      have ihr := ih (fun o ho => h o (List.mem_cons_of_mem _ ho))
      cases hc : env.commit_project pc out with
      | ok u =>
        simp [commitPhase, hlook, hc, ihr, commitErrorsOf, List.filterMap_cons,
          exceptError?]
      | error e =>
        simp [commitPhase, hlook, hc, ihr, commitErrorsOf, List.filterMap_cons,
          exceptError?]

theorem checkPhase_char (env : Env) (schemas : List (ProjectName × Schema))
    (ws : List ProjectConfig)
    (h : ∀ pc ∈ ws, (lookupSchema schemas pc.name).isSome) :
    checkPhase env schemas ws =
      (ws.map (fun pc => Event.checkProjectCall pc.name),
        .returned (checkErrorsOf env schemas ws)) := by
  induction ws with
  | nil => rfl
  | cons pc rest ih =>
    have hpc := h pc (List.mem_cons_self _ _)
    cases hlook : lookupSchema schemas pc.name with
    | none => rw [hlook] at hpc; simp at hpc
    | some schema =>
      have ihr := ih (fun o ho => h o (List.mem_cons_of_mem _ ho))
      cases hc : env.check_project pc schema with
      | ok u =>
        simp [checkPhase, hlook, hc, ihr, checkErrorsOf, List.filterMap_cons,
          exceptError?]
      | error e =>
        simp [checkPhase, hlook, hc, ihr, checkErrorsOf, List.filterMap_cons,
          exceptError?]

theorem commitCalls_commitPhase (env : Env) (config : Config)
    (results : List BuildOutput) :
    commitCalls (commitPhase env config results).1 =
      (results.filter
        (fun out => (config.getProject out.project_name).isSome)).map
        (·.project_name) := by
  induction results with
  | nil => rfl
  | cons out rest ih =>
    cases hlook : config.getProject out.project_name with
    | none =>
      simp only [commitPhase, hlook]
      simpa [commitCalls, List.filterMap_cons, List.filter_cons, hlook] using ih
    | some pc =>
      cases hc : env.commit_project pc out with
      | ok u =>
        simp only [commitPhase, hlook, hc]
        simpa [commitCalls, List.filterMap_cons, List.filter_cons, hlook] using ih
      | error e =>
        rcases h : commitPhase env config rest with ⟨tr, res⟩
        rw [h] at ih
        cases res with
        | panicked m =>
          simp only [commitPhase, hlook, hc, h]
          simpa [commitCalls, List.filterMap_cons, List.filter_cons, hlook] using ih
        | returned es =>
          simp only [commitPhase, hlook, hc, h]
          simpa [commitCalls, List.filterMap_cons, List.filter_cons, hlook] using ih

theorem commitTaskPanics_commitPhase (env : Env) (config : Config)
    (results : List BuildOutput) :
    commitTaskPanics (commitPhase env config results).1 =
      (results.filter
        (fun out => (config.getProject out.project_name).isNone)).map
        (·.project_name) := by
  induction results with
  | nil => rfl
  | cons out rest ih =>
    cases hlook : config.getProject out.project_name with
    | none =>
      simp only [commitPhase, hlook]
      simpa [commitTaskPanics, List.filterMap_cons, List.filter_cons, hlook] using ih
    | some pc =>
      cases hc : env.commit_project pc out with
      | ok u =>
        simp only [commitPhase, hlook, hc]
        simpa [commitTaskPanics, List.filterMap_cons, List.filter_cons, hlook] using ih
      | error e =>
        rcases h : commitPhase env config rest with ⟨tr, res⟩
        rw [h] at ih
        cases res with
        | panicked m =>
          simp only [commitPhase, hlook, hc, h]
          simpa [commitTaskPanics, List.filterMap_cons, List.filter_cons, hlook] using ih
        | returned es =>
          simp only [commitPhase, hlook, hc, h]
          simpa [commitTaskPanics, List.filterMap_cons, List.filter_cons, hlook] using ih

theorem commitPhase_errors_returned (env : Env) (config : Config)
    (results : List BuildOutput) :
    (commitPhase env config results).2 =
      .returned (commitErrorsOf env config results) := by
  induction results with
  | nil => rfl
  | cons out rest ih =>
    cases hlook : config.getProject out.project_name with
    | none =>
      simp only [commitPhase, hlook]
      simpa [commitErrorsOf, List.filterMap_cons, hlook] using ih
    | some pc =>
      cases hc : env.commit_project pc out with
      | ok u =>
        simp only [commitPhase, hlook, hc]
        simpa [commitErrorsOf, List.filterMap_cons, hlook, hc, exceptError?] using ih
      | error e =>
        rcases h : commitPhase env config rest with ⟨tr, res⟩
        rw [h] at ih
        cases res with
        | panicked m => simp at ih
        | returned es =>
          simp only [PResult.returned.injEq] at ih
          simp only [commitPhase, hlook, hc, h]
          simp [commitErrorsOf, List.filterMap_cons, hlook, hc, exceptError?, ih]

theorem mem_collectErrors (env : Env) (ws : List ProjectConfig)
    (pc : ProjectConfig) (e : BuildProjectError)
    (hmem : pc ∈ ws) (hf : env.build_project pc = .error e) :
    e ∈ collectErrors (ws.map env.build_project) := by
  simp only [collectErrors, List.mem_filterMap]
  exact ⟨Except.error e, hf ▸ List.mem_map_of_mem env.build_project hmem, rfl⟩

theorem workSetResult_override_some (config : Config) (st : CompilerState)
    (x : ProjectName) (pc : ProjectConfig)
    (ho : config.only_project = some x) (hg : config.getProject x = some pc) :
    workSetResult config st = .returned [pc] := by
  simp [workSetResult, ho, hg]

theorem workSetResult_override_missing (config : Config) (st : CompilerState)
    (x : ProjectName)
    (ho : config.only_project = some x) (hg : config.getProject x = none) :
    workSetResult config st =
      .panicked ("Expected the project " ++ x ++ " to exist") := by
  simp [workSetResult, ho, hg]

theorem workSetResult_no_override (config : Config) (st : CompilerState)
    (ho : config.only_project = none) :
    workSetResult config st =
      .returned ((config.projects.filter
        (fun p => st.project_has_pending_changes p.snd.name)).map (·.snd)) := by
  simp [workSetResult, ho]

theorem build_projects_analysis_failure (env : Env) (config : Config)
    (st : CompilerState) (ws : List ProjectConfig)
    (hp : env.parse = Except.ok ())
    (hws : workSetResult config st = .returned ws)
    (herr : collectErrors (ws.map env.build_project) ≠ []) :
    build_projects env config st =
      (ws.map (fun pc => Event.buildProjectCall pc.name),
        .returned (.error (.buildProjectsErrors
          (collectErrors (ws.map env.build_project))))) := by
  have hie : (collectErrors (ws.map env.build_project)).isEmpty = false := by
    cases h : collectErrors (ws.map env.build_project) with
    | nil => exact absurd h herr
    | cons a l => rfl
  simp [build_projects, hp, hws, hie]

theorem build_projects_commit_returned (env : Env) (config : Config)
    (st : CompilerState) (ws : List ProjectConfig)
    (trace2 : List Event) (commit_errors : List BuildProjectError)
    (hp : env.parse = Except.ok ())
    (hws : workSetResult config st = .returned ws)
    (herr : collectErrors (ws.map env.build_project) = [])
    (hcp : commitPhase env config (collectResults (ws.map env.build_project)) =
      (trace2, .returned commit_errors)) :
    build_projects env config st =
      (ws.map (fun pc => Event.buildProjectCall pc.name) ++ trace2,
        .returned (if commit_errors.isEmpty then Except.ok ([] : ArtifactMap)
          else .error (.buildProjectsErrors commit_errors))) := by
  simp [build_projects, hp, hws, herr, hcp]

theorem build_projects_commit_panicked (env : Env) (config : Config)
    (st : CompilerState) (ws : List ProjectConfig)
    (trace2 : List Event) (msg : String)
    (hp : env.parse = Except.ok ())
    (hws : workSetResult config st = .returned ws)
    (herr : collectErrors (ws.map env.build_project) = [])
    (hcp : commitPhase env config (collectResults (ws.map env.build_project)) =
      (trace2, .panicked msg)) :
    build_projects env config st =
      (ws.map (fun pc => Event.buildProjectCall pc.name) ++ trace2,
        .panicked msg) := by
  simp [build_projects, hp, hws, herr, hcp]

theorem build_projects_workset_panicked (env : Env) (config : Config)
    (st : CompilerState) (msg : String)
    (hp : env.parse = Except.ok ())
    (hws : workSetResult config st = .panicked msg) :
    build_projects env config st = ([], .panicked msg) := by
  simp [build_projects, hp, hws]

theorem check_projects_eq (env : Env) (config : Config)
    (schemas : List (ProjectName × Schema)) (st : CompilerState)
    (ws : List ProjectConfig) (trace : List Event)
    (errs : List BuildProjectError)
    (hp : env.parse = Except.ok ())
    (hws : workSetResult config st = .returned ws)
    (hcp : checkPhase env schemas ws = (trace, .returned errs)) :
    check_projects env config schemas st =
      (trace, .returned (if errs.isEmpty then Except.ok ()
        else .error (.buildProjectsErrors errs))) := by
  simp [check_projects, hp, hws, hcp]

theorem check_projects_workset_panicked (env : Env) (config : Config)
    (schemas : List (ProjectName × Schema)) (st : CompilerState) (msg : String)
    (hp : env.parse = Except.ok ())
    (hws : workSetResult config st = .panicked msg) :
    check_projects env config schemas st = ([], .panicked msg) := by
  simp [check_projects, hp, hws]

theorem buildCalls_build_projects (env : Env) (config : Config)
    (st : CompilerState) (ws : List ProjectConfig)
    (hp : env.parse = Except.ok ())
    (hws : workSetResult config st = .returned ws) :
    buildCalls (build_projects env config st).1 = ws.map (·.name) := by
  cases herr : collectErrors (ws.map env.build_project) with
  | nil =>
    rcases hcp : commitPhase env config
        (collectResults (ws.map env.build_project)) with ⟨tr2, res2⟩
    have hb := buildCalls_commitPhase env config
      (collectResults (ws.map env.build_project))
    rw [hcp] at hb
    cases res2 with
    | panicked m =>
      rw [build_projects_commit_panicked env config st ws tr2 m hp hws herr hcp]
      simp only [buildCalls_append, buildCalls_buildTrace]
      simp at hb
      simp [hb]
    | returned es =>
      rw [build_projects_commit_returned env config st ws tr2 es hp hws herr hcp]
      simp only [buildCalls_append, buildCalls_buildTrace]
      simp at hb
      simp [hb]
  | cons e es =>
    rw [build_projects_analysis_failure env config st ws hp hws (by simp [herr])]
    simp [buildCalls_buildTrace]

theorem checkCalls_checkTrace (ws : List ProjectConfig) :
    checkCalls (ws.map (fun pc => Event.checkProjectCall pc.name)) =
      ws.map (·.name) := by
  induction ws with
  | nil => rfl
  | cons pc rest ih => simp only [List.map_cons, checkCalls, List.filterMap_cons] at ih ⊢; simpa using ih

theorem callbackCalls_check_projects (env : Env) (config : Config)
    (schemas : List (ProjectName × Schema)) (st : CompilerState) :
    callbackCalls (check_projects env config schemas st).1 = [] := by
  cases hp : env.parse with
  | error e => simp [check_projects, hp, callbackCalls]
  | ok u =>
    cases u
    cases hws : workSetResult config st with
    | panicked m => simp [check_projects, hp, hws, callbackCalls]
    | returned ws =>
      rcases hcp : checkPhase env schemas ws with ⟨tr, res⟩
      have h := callbackCalls_checkPhase env schemas ws
      rw [hcp] at h
      simp only at h
      cases res with
      | panicked m => simpa [check_projects, hp, hws, hcp] using h
      | returned es => simpa [check_projects, hp, hws, hcp] using h

/-- C2: for every build cycle in which at least one project's analysis
(`build_project`) returns an error, the commit phase is skipped entirely —
`commit_project` is invoked for no project, including projects whose
analysis succeeded — and `build_projects` returns the aggregated failure
containing the analysis errors. -/
theorem C2_analysis_failure_skips_commit (env : Env) (config : Config)
    (st : CompilerState) (ws : List ProjectConfig)
    (hp : env.parse = Except.ok ())
    (hws : workSetResult config st = .returned ws)
    (herr : collectErrors (ws.map env.build_project) ≠ []) :
    commitCalls (build_projects env config st).1 = [] ∧
    (build_projects env config st).2 =
      .returned (.error (.buildProjectsErrors
        (collectErrors (ws.map env.build_project)))) := by
  rw [build_projects_analysis_failure env config st ws hp hws herr]
  exact ⟨commitCalls_buildTrace ws, rfl⟩

/-- Witness for C2: with projects `A` and `B` dirty and `A`'s analysis
failing, no commit happens and the analysis error is aggregated. -/
theorem C2_witness :
    commitCalls (build_projects envAfail cfgAB stAB).1 = [] ∧
    (build_projects envAfail cfgAB stAB).2 =
      .returned (.error (.buildProjectsErrors
        (collectErrors ([pcA, pcB].map envAfail.build_project)))) :=
  C2_analysis_failure_skips_commit envAfail cfgAB stAB [pcA, pcB] rfl
    (by decide) (by decide)

/-- C1 (counterexample): a fully successful cycle — both projects analysed
and committed with zero failures — returns `Ok` with the *empty* manifest:
the returned `ArtifactMap` contains no entry for either built project,
contrary to the claim that it contains the committed artifacts of each
built project. -/
theorem C1_counterexample :
    collectErrors ([pcA, pcB].map envOK.build_project) = [] ∧
    commitCalls (build_projects envOK cfgAB stAB).1 = ["A", "B"] ∧
    (build_projects envOK cfgAB stAB).2 =
      .returned (.ok ([] : ArtifactMap)) ∧
    (∀ a, ("A", a) ∉ ([] : ArtifactMap)) ∧
    (∀ a, ("B", a) ∉ ([] : ArtifactMap)) := by
  refine ⟨rfl, rfl, rfl, ?_, ?_⟩ <;> intro a h <;> cases h

/-- C1 (amended): after a build cycle in which the analysis phase and the
commit phase both produce zero failures, `build_projects` returns `Ok` with
the default (empty) `ArtifactMap`; the per-project commit outputs are not
merged into the returned manifest. -/
theorem C1_success_returns_empty_manifest (env : Env) (config : Config)
    (st : CompilerState) (ws : List ProjectConfig) (trace2 : List Event)
    (hp : env.parse = Except.ok ())
    (hws : workSetResult config st = .returned ws)
    (herr : collectErrors (ws.map env.build_project) = [])
    (hcommit : commitPhase env config
        (collectResults (ws.map env.build_project)) = (trace2, .returned [])) :
    (build_projects env config st).2 = .returned (.ok ([] : ArtifactMap)) := by
  rw [build_projects_commit_returned env config st ws trace2 [] hp hws herr
    hcommit]
  rfl

/-- Witness for C1 (amended): the fully successful two-project cycle. -/
theorem C1_witness :
    (build_projects envOK cfgAB stAB).2 = .returned (.ok ([] : ArtifactMap)) :=
  C1_success_returns_empty_manifest envOK cfgAB stAB [pcA, pcB]
    [Event.commitProjectCall "A", Event.commitProjectCall "B"]
    rfl (by decide) (by decide) rfl

/-- C3 (counterexample): with `A` and `B` both dirty in the same cycle,
`A`'s analysis failing and `B`'s succeeding, `commit_project` is invoked
for *no* project — in particular not for `B` — contrary to the claim that
`B`'s artifacts are still committed. -/
theorem C3_counterexample :
    envAfail.build_project pcA =
      .error (.buildFailure ("A analysis failed")) ∧
    envAfail.build_project pcB = .ok ⟨"B", 1, 2⟩ ∧
    stAB.project_has_pending_changes "A" = true ∧
    stAB.project_has_pending_changes "B" = true ∧
    commitCalls (build_projects envAfail cfgAB stAB).1 = [] ∧
    (build_projects envAfail cfgAB stAB).2 =
      .returned (.error (.buildProjectsErrors
        [.buildFailure ("A analysis failed")])) :=
  ⟨rfl, rfl, rfl, rfl, rfl, rfl⟩

/-- C3 (amended): if project `A`'s analysis fails while project `B`'s
succeeds within the same cycle, the commit phase is skipped for both
(`commit_project` is invoked for no project, so `B` is *not* committed),
`A`'s failure appears in the aggregate error, and the compiler state — in
particular `A`'s prior artifact-manifest entry — is left untouched. -/
theorem C3_sibling_failure_no_commit (env : Env) (config : Config)
    (st : CompilerState) (ws : List ProjectConfig)
    (pcF : ProjectConfig) (eF : BuildProjectError)
    (hp : env.parse = Except.ok ())
    (hws : workSetResult config st = .returned ws)
    (hmem : pcF ∈ ws)
    (hfail : env.build_project pcF = .error eF) :
    eF ∈ collectErrors (ws.map env.build_project) ∧
    commitCalls (build_projects env config st).1 = [] ∧
    (Compiler.build_projects env config st).2 =
      .returned (st, .error (.buildProjectsErrors
        (collectErrors (ws.map env.build_project)))) := by
  have hmemE := mem_collectErrors env ws pcF eF hmem hfail
  have hne : collectErrors (ws.map env.build_project) ≠ [] :=
    List.ne_nil_of_mem hmemE
  have heq := build_projects_analysis_failure env config st ws hp hws hne
  refine ⟨hmemE, ?_, ?_⟩
  · rw [heq]; exact commitCalls_buildTrace ws
  · simp [Compiler.build_projects, schedulerBuildProjects, heq]

/-- Witness for C3 (amended): `A` fails, `B` succeeds, nothing is committed
and the state (with its prior manifest entry for `A`) is returned intact. -/
theorem C3_witness :
    (.buildFailure ("A analysis failed") : BuildProjectError) ∈
      collectErrors ([pcA, pcB].map envAfail.build_project) ∧
    commitCalls (build_projects envAfail cfgAB stAB).1 = [] ∧
    (Compiler.build_projects envAfail cfgAB stAB).2 =
      .returned (stAB, .error (.buildProjectsErrors
        (collectErrors ([pcA, pcB].map envAfail.build_project)))) :=
  C3_sibling_failure_no_commit envAfail cfgAB stAB [pcA, pcB] pcA
    (.buildFailure ("A analysis failed")) rfl (by decide) (by decide) rfl

/-- C5: completion is recorded exactly when the scheduler succeeds.  On
success, `complete_compilation` is applied with the new manifest (clearing
the dirty flags and installing the manifest) and the final state is
returned by `compile`; on an aggregated failure the error is returned, the
state is left untouched (dirty flags remain set) and `compile` surfaces the
error. -/
theorem C5_completion_recorded_iff_success (env : Env) (config : Config)
    (st : CompilerState) :
    (∀ m trace, build_projects env config st = (trace, .returned (.ok m)) →
      Compiler.build_projects env config st =
        (trace, .returned (st.complete_compilation m, Except.ok ())) ∧
      (st.complete_compilation m).dirty = [] ∧
      (st.complete_compilation m).artifacts = m ∧
      Compiler.compile env config (.ok st) =
        (trace, .returned (.ok (st.complete_compilation m)))) ∧
    (∀ e trace, build_projects env config st = (trace, .returned (.error e)) →
      Compiler.build_projects env config st =
        (trace, .returned (st, Except.error e)) ∧
      Compiler.compile env config (.ok st) =
        (trace, .returned (.error e))) := by
  constructor
  · intro m trace h
    have h1 : Compiler.build_projects env config st =
        (trace, .returned (st.complete_compilation m, Except.ok ())) := by
      simp [Compiler.build_projects, schedulerBuildProjects, h]
    exact ⟨h1, rfl, rfl, by simp [Compiler.compile, h1]⟩
  · intro e trace h
    have h1 : Compiler.build_projects env config st =
        (trace, .returned (st, Except.error e)) := by
      simp [Compiler.build_projects, schedulerBuildProjects, h]
    exact ⟨h1, by simp [Compiler.compile, h1]⟩

/-- Witness for C5: the fully successful two-project cycle records
completion with the (empty) new manifest and returns the completed state. -/
theorem C5_witness :
    Compiler.build_projects envOK cfgAB stAB =
      ([Event.buildProjectCall "A", Event.buildProjectCall "B",
        Event.commitProjectCall "A", Event.commitProjectCall "B"],
        .returned (stAB.complete_compilation [], Except.ok ())) ∧
    (stAB.complete_compilation []).dirty = [] ∧
    (stAB.complete_compilation []).artifacts = [] ∧
    Compiler.compile envOK cfgAB (.ok stAB) =
      ([Event.buildProjectCall "A", Event.buildProjectCall "B",
        Event.commitProjectCall "A", Event.commitProjectCall "B"],
        .returned (.ok (stAB.complete_compilation []))) :=
  (C5_completion_recorded_iff_success envOK cfgAB stAB).1 []
    [Event.buildProjectCall "A", Event.buildProjectCall "B",
      Event.commitProjectCall "A", Event.commitProjectCall "B"] rfl

/-- C6: the scheduler's work set is exactly the one project named by the
single-project override when one is configured (regardless of which
projects are dirty), and otherwise exactly the registry projects whose
pending-changes flag is set; the analysis phase then runs `build_project`
on exactly that work set. -/
theorem C6_work_set_determination (env : Env) (config : Config)
    (st : CompilerState) (ws : List ProjectConfig)
    (hp : env.parse = Except.ok ())
    (hws : workSetResult config st = .returned ws) :
    buildCalls (build_projects env config st).1 = ws.map (·.name) ∧
    (∀ x pc, config.only_project = some x → config.getProject x = some pc →
      ws = [pc]) ∧
    (config.only_project = none →
      ∀ pc, pc ∈ ws ↔ ((∃ key, (key, pc) ∈ config.projects) ∧
        st.project_has_pending_changes pc.name = true)) ∧
    (∀ schemas, (∀ pc ∈ ws, (lookupSchema schemas pc.name).isSome) →
      checkCalls (check_projects env config schemas st).1 = ws.map (·.name)) := by
  refine ⟨buildCalls_build_projects env config st ws hp hws, ?_, ?_, ?_⟩
  · intro x pc ho hg
    have h2 := (workSetResult_override_some config st x pc ho hg).symm.trans hws
    simpa using h2.symm
  · intro ho pc
    have h2 := (workSetResult_no_override config st ho).symm.trans hws
    have hwseq : ws = (config.projects.filter
        (fun p => st.project_has_pending_changes p.snd.name)).map (·.snd) := by
      have h3 := h2.symm
      simpa using h3
    subst hwseq
    constructor
    · intro hmem
      rcases List.mem_map.mp hmem with ⟨a, hba, rfl⟩
      rcases List.mem_filter.mp hba with ⟨hal, hq⟩
      exact ⟨⟨a.1, by simpa using hal⟩, hq⟩
    · rintro ⟨⟨k, hkl⟩, hdirty⟩
      exact List.mem_map.mpr ⟨(k, pc), List.mem_filter.mpr ⟨hkl, hdirty⟩, rfl⟩
  · intro schemas hsch
    rw [check_projects_eq env config schemas st ws _ _ hp hws
      (checkPhase_char env schemas ws hsch)]
    exact checkCalls_checkTrace ws

/-- Witness for C6: with the override set to `A` (and `B` dirty as well),
the analysis phase builds exactly project `A`. -/
theorem C6_witness :
    buildCalls (build_projects envOK cfgOnlyA stAB).1 = [pcA].map (·.name) :=
  (C6_work_set_determination envOK cfgOnlyA stAB [pcA] rfl (by decide)).1

/-- C8 (counterexample): a build result referencing a project name absent
from the registry does *not* make the cycle fail loudly: the `panic!` fires
inside the spawned commit task and tokio contains it, so with both dirty
projects' outputs labelled `X` (not in the registry) `build_projects`
completes with `Ok` on the default manifest — no commit, no error, no
cycle-level panic; the projects are silently skipped. -/
theorem C8_counterexample :
    Config.getProject cfgAB "X" = none ∧
    collectResults ([pcA, pcB].map envBadName.build_project) =
      [⟨"X", 1, 2⟩, ⟨"X", 1, 2⟩] ∧
    (build_projects envBadName cfgAB stAB).2 =
      .returned (.ok ([] : ArtifactMap)) ∧
    commitCalls (build_projects envBadName cfgAB stAB).1 = [] ∧
    commitTaskPanics (build_projects envBadName cfgAB stAB).1 = ["X", "X"] := by
  refine ⟨rfl, rfl, rfl, rfl, rfl⟩

/-- C8 (amended): a project name referenced by the single-project override
that is absent from the project registry panics with the contract-violation
message in both `build_projects` and `check_projects` — a non-existent
override name never results in a silent no-op.  A build result whose
project name is absent from the registry, however, panics only inside its
spawned commit task: the panic is contained, `commit_project` is invoked
exactly for the resolvable outputs, the contained panics are exactly the
unresolvable ones, and the phase returns (without any cycle-level panic)
exactly the commit errors of the resolvable outputs — the unresolvable
project is silently skipped. -/
theorem C8_override_panics_commit_panic_contained :
    (∀ (env : Env) (config : Config) (st : CompilerState) (x : ProjectName),
      env.parse = Except.ok () → config.only_project = some x →
      config.getProject x = none →
      (build_projects env config st).2 =
        .panicked ("Expected the project " ++ x ++ " to exist")) ∧
    (∀ (env : Env) (config : Config) (schemas : List (ProjectName × Schema))
      (st : CompilerState) (x : ProjectName),
      env.parse = Except.ok () → config.only_project = some x →
      config.getProject x = none →
      (check_projects env config schemas st).2 =
        .panicked ("Expected the project " ++ x ++ " to exist")) ∧
    (∀ (env : Env) (config : Config) (results : List BuildOutput),
      commitCalls (commitPhase env config results).1 =
        (results.filter
          (fun out => (config.getProject out.project_name).isSome)).map
          (·.project_name) ∧
      commitTaskPanics (commitPhase env config results).1 =
        (results.filter
          (fun out => (config.getProject out.project_name).isNone)).map
          (·.project_name) ∧
      (commitPhase env config results).2 =
        .returned (commitErrorsOf env config results)) := by
  refine ⟨?_, ?_, ?_⟩
  · intro env config st x hp ho hg
    rw [build_projects_workset_panicked env config st _ hp
      (workSetResult_override_missing config st x ho hg)]
  · intro env config schemas st x hp ho hg
    rw [check_projects_workset_panicked env config schemas st _ hp
      (workSetResult_override_missing config st x ho hg)]
  · intro env config results
    exact ⟨commitCalls_commitPhase env config results,
      commitTaskPanics_commitPhase env config results,
      commitPhase_errors_returned env config results⟩

/-- Witness for C8 (amended): the non-existent override name `C` aborts
`build_projects` with the contract-violation panic. -/
theorem C8_witness :
    (build_projects envOK cfgOnlyC stAB).2 =
      .panicked ("Expected the project " ++ "C" ++ " to exist") :=
  C8_override_panics_commit_panic_contained.1 envOK cfgOnlyC stAB "C" rfl rfl rfl

/-- C9: within one build or check cycle, a per-project failure never stops
evaluation of sibling projects: every project of the work set is checked
(resp. analysed), the check cycle returns `Ok` exactly when its collected
error list is empty, and the aggregate failure carries all underlying
errors of every failed project — for the analysis phase and, when the
analysis is clean, for the commit phase as well. -/
theorem C9_per_project_failure_isolation (env : Env) (config : Config)
    (schemas : List (ProjectName × Schema)) (st : CompilerState)
    (ws : List ProjectConfig)
    (hp : env.parse = Except.ok ())
    (hws : workSetResult config st = .returned ws)
    (hsch : ∀ pc ∈ ws, (lookupSchema schemas pc.name).isSome) :
    checkCalls (check_projects env config schemas st).1 = ws.map (·.name) ∧
    (check_projects env config schemas st).2 =
      .returned (if (checkErrorsOf env schemas ws).isEmpty then Except.ok ()
        else .error (.buildProjectsErrors (checkErrorsOf env schemas ws))) ∧
    buildCalls (build_projects env config st).1 = ws.map (·.name) ∧
    (collectErrors (ws.map env.build_project) ≠ [] →
      (build_projects env config st).2 =
        .returned (.error (.buildProjectsErrors
          (collectErrors (ws.map env.build_project))))) ∧
    (collectErrors (ws.map env.build_project) = [] →
      (∀ out ∈ collectResults (ws.map env.build_project),
        (config.getProject out.project_name).isSome) →
      (build_projects env config st).2 =
        .returned (if (commitErrorsOf env config
            (collectResults (ws.map env.build_project))).isEmpty then
          Except.ok ([] : ArtifactMap)
        else .error (.buildProjectsErrors (commitErrorsOf env config
          (collectResults (ws.map env.build_project)))))) := by
  have hchk := checkPhase_char env schemas ws hsch
  have hce := check_projects_eq env config schemas st ws _ _ hp hws hchk
  refine ⟨?_, ?_, buildCalls_build_projects env config st ws hp hws, ?_, ?_⟩
  · rw [hce]; exact checkCalls_checkTrace ws
  · rw [hce]
  · intro hne
    rw [build_projects_analysis_failure env config st ws hp hws hne]
  · intro hnil hlookup
    rw [build_projects_commit_returned env config st ws _ _ hp hws hnil
      (commitPhase_char env config _ hlookup)]

/-- Witness for C9: with `A` failing and `B` succeeding, both dirty
projects are checked. -/
theorem C9_witness :
    checkCalls (check_projects envAfail cfgAB schemasAB stAB).1 =
      [pcA, pcB].map (·.name) :=
  (C9_per_project_failure_isolation envAfail cfgAB schemasAB stAB [pcA, pcB]
    rfl (by decide) (by decide)).1

/-- C4 (counterexample): the watch loop also terminates when merging a
change batch fails — here the subscription delivered one ordinary change
batch (no transport error, no end-of-stream), yet the loop exits with the
merge error — contrary to the claim that it terminates only on subscription
termination or error. -/
theorem C4_counterexample :
    (watchLoop envMergeFail cfgAB stAB [SubEvent.change 0]).2 =
      .returned (some (.otherError ("merge failed"))) ∧
    ([SubEvent.change 0].all (fun ev => !ev.isSubError)) = true :=
  ⟨rfl, rfl⟩

/-- C4 (amended): the build-mode watch loop terminates only when the change
subscription errors or when merging a change batch fails, and that error
propagates out of the loop; a recompilation cycle that fails is only
logged and the loop continues watching — no build failure ever causes the
loop to return. -/
theorem C4_watch_loop_terminates_only_on_subscription_or_merge_error
    (env : Env) (config : Config) :
    (∀ st events trace e,
      watchLoop env config st events = (trace, .returned (some e)) →
      SubEvent.subError e ∈ events ∨
        ∃ st2 batch, SubEvent.change batch ∈ events ∧
          env.merge st2 batch = .error e) ∧
    (∀ st events trace e,
      (∀ e2, SubEvent.subError e2 ∉ events) →
      (∀ st2 batch e2, env.merge st2 batch ≠ .error e2) →
      watchLoop env config st events ≠ (trace, .returned (some e))) := by
  have main : ∀ events st trace e,
      watchLoop env config st events = (trace, .returned (some e)) →
      SubEvent.subError e ∈ events ∨
        ∃ st2 batch, SubEvent.change batch ∈ events ∧
          env.merge st2 batch = .error e := by
    intro events
    induction events with
    | nil =>
      intro st trace e h
      simp [watchLoop] at h
    | cons ev rest ih =>
      intro st trace e h
      cases ev with
      | subError e2 =>
        simp only [watchLoop, Prod.mk.injEq] at h
        obtain ⟨-, h2⟩ := h
        obtain rfl : e2 = e := by
          cases h2
          rfl
        exact Or.inl (List.mem_cons_self _ _)
      | noChange =>
        rcases ih st trace e (by simpa [watchLoop] using h) with hmem | ⟨st2, b, hb, hm⟩
        · exact Or.inl (List.mem_cons_of_mem _ hmem)
        · exact Or.inr ⟨st2, b, List.mem_cons_of_mem _ hb, hm⟩
      | change batch =>
        cases hm : env.merge st batch with
        | error e2 =>
          simp only [watchLoop, hm, Prod.mk.injEq] at h
          obtain ⟨-, h2⟩ := h
          obtain rfl : e2 = e := by
            cases h2
            rfl
          exact Or.inr ⟨st, batch, List.mem_cons_self _ _, hm⟩
        | ok p =>
          rcases p with ⟨st2, had⟩
          cases had with
          | false =>
            rcases ih st2 trace e (by simpa [watchLoop, hm] using h)
              with hmem | ⟨stx, b, hb, hmx⟩
            · exact Or.inl (List.mem_cons_of_mem _ hmem)
            · exact Or.inr ⟨stx, b, List.mem_cons_of_mem _ hb, hmx⟩
          | true =>
            rcases hbp : Compiler.build_projects env config st2 with ⟨tr, pres⟩
            cases pres with
            | panicked m =>
              simp [watchLoop, hm, hbp] at h
            | returned p2 =>
              rcases p2 with ⟨st3, r⟩
              rcases hw : watchLoop env config st3 rest with ⟨tr2, res2⟩
              have h2 : res2 = .returned (some e) := by
                simp [watchLoop, hm, hbp, hw] at h
                exact h.2
              rcases ih st3 tr2 e (by rw [hw, h2]) with hmem | ⟨stx, b, hb, hmx⟩
              · exact Or.inl (List.mem_cons_of_mem _ hmem)
              · exact Or.inr ⟨stx, b, List.mem_cons_of_mem _ hb, hmx⟩
  refine ⟨fun st events => main events st, ?_⟩
  intro st events trace e hsub hmerge hcontra
  rcases main events st trace e hcontra with hmem | ⟨st2, b, _, hm⟩
  · exact hsub e hmem
  · exact hmerge st2 b e hm

/-- Witness for C4 (amended): on a stream whose only event is a transport
error, the loop's exit is attributed to that subscription error. -/
theorem C4_witness :
    SubEvent.subError (.otherError ("transport")) ∈
      [SubEvent.subError (.otherError ("transport"))] ∨
    ∃ st2 batch,
      SubEvent.change batch ∈ [SubEvent.subError (.otherError ("transport"))] ∧
      envOK.merge st2 batch = .error (.otherError ("transport")) :=
  (C4_watch_loop_terminates_only_on_subscription_or_merge_error envOK cfgAB).1
    stAB [SubEvent.subError (.otherError ("transport"))] [] (.otherError ("transport")) rfl

theorem callbackCalls_cons_callback (r : Except Error Unit) (t : List Event) :
    callbackCalls (Event.callbackCall r :: t) = r :: callbackCalls t := by
  simp [callbackCalls, List.filterMap_cons]

theorem callbackCalls_append (a b : List Event) :
    callbackCalls (a ++ b) = callbackCalls a ++ callbackCalls b := by
  simp [callbackCalls, List.filterMap_append]

/-- C7: in check-only watch mode, for a received change batch whose merge
reports new pending changes the callback is invoked exactly twice — first
with the empty success `Ok(())` to clear existing errors, then with the
result of re-checking the projects — while a batch whose merge reports no
new changes triggers no check and no callback at all. -/
theorem C7_callback_invocations (env : Env) (config : Config)
    (schemas : List (ProjectName × Schema)) (st : CompilerState)
    (batch : FileSourceChanges) :
    (∀ st2 trace r, env.merge st batch = .ok (st2, true) →
      check_projects env config schemas st2 = (trace, .returned r) →
      callbackCalls (watchCallbackCycle env config schemas st batch).1 =
        [Except.ok (), r] ∧
      (watchCallbackCycle env config schemas st batch).2 =
        .returned (.ok st2)) ∧
    (∀ st2, env.merge st batch = .ok (st2, false) →
      watchCallbackCycle env config schemas st batch =
        ([], .returned (.ok st2))) := by
  constructor
  · intro st2 trace r hm hc
    have hcb : callbackCalls trace = [] := by
      have h := callbackCalls_check_projects env config schemas st2
      rw [hc] at h
      simpa using h
    constructor
    · have hexp : (watchCallbackCycle env config schemas st batch).1 =
          (Event.callbackCall (.ok ()) :: trace) ++ [Event.callbackCall r] := by
        simp [watchCallbackCycle, hm, hc]
      rw [hexp, callbackCalls_append, callbackCalls_cons_callback, hcb]
      rfl
    · simp [watchCallbackCycle, hm, hc]
  · intro st2 hm
    simp [watchCallbackCycle, hm]

/-- Witness for C7: a clean cycle invokes the callback with `Ok(())` and
then with the (successful) re-check result. -/
theorem C7_witness :
    callbackCalls (watchCallbackCycle envOK cfgAB schemasAB stAB 0).1 =
      [Except.ok (), Except.ok ()] ∧
    (watchCallbackCycle envOK cfgAB schemasAB stAB 0).2 =
      .returned (.ok stAB) :=
  (C7_callback_invocations envOK cfgAB schemasAB stAB 0).1 stAB
    [Event.checkProjectCall "A", Event.checkProjectCall "B"] (Except.ok ())
    rfl rfl

theorem foldl_append_concat (f : Location → String) (locs : List Location)
    (s : String) :
    locs.foldl (fun acc l => acc ++ f l) s = s ++ concatStrings (locs.map f) := by
  induction locs generalizing s with
  | nil => simp [concatStrings, String.append_empty]
  | cons l rest ih => simp [concatStrings, ih, String.append_assoc]

/-- C10: the error reporter renders one block per validation error, in
input order with no reordering or deduplication (the output list has the
same length and its i-th block renders the i-th error); within a block the
location fragments follow the input location order, and a location whose
source cannot be resolved is rendered as the raw location (debug form)
instead of a source excerpt. -/
theorem C10_error_reporter_rendering (renv : ReporterEnv)
    (errors : List ValidationError) :
    (print_project_error renv (.validationErrors errors)).length =
      errors.length ∧
    (∀ i, (print_project_error renv (.validationErrors errors)).get? i =
      (errors.get? i).map (fun ve => ve.message ++
        concatStrings (ve.locations.map (locationFragment renv)))) ∧
    (∀ location, renv.source_for_location location = none →
      locationFragment renv location = "\n" ++ renv.locationDebug location) := by
  refine ⟨by simp [print_project_error], ?_, ?_⟩
  · intro i
    have hrender : ∀ ve : ValidationError, renderValidationError renv ve =
        ve.message ++ concatStrings (ve.locations.map (locationFragment renv)) :=
      fun ve => foldl_append_concat (locationFragment renv) ve.locations ve.message
    simp only [print_project_error, List.get?_eq_getElem?, List.getElem?_map]
    cases errors[i]? with
    | none => rfl
    | some ve => simp [hrender]
  · intro location hnone
    simp [locationFragment, hnone]

/-- Witness for C10: the unresolvable location `loc1` is rendered in debug
form, and the reporter emits exactly one block per input error. -/
theorem C10_witness :
    locationFragment renvW "loc1" = "\n" ++ renvW.locationDebug "loc1" ∧
    (print_project_error renvW (.validationErrors vesW)).length = vesW.length :=
  ⟨(C10_error_reporter_rendering renvW vesW).2.2 "loc1" rfl,
    (C10_error_reporter_rendering renvW vesW).1⟩
